import Mathlib

/-!
Verification of the Report-Generation repository (pharmaceutical
manufacturing report pipeline) against its natural-language specification.

The Python sources are shallowly embedded:
  * Python strings are lists of Unicode code points (`Str := List Nat`);
  * Python dicts / JSON values are the inductive `RVal` (association lists
    keep insertion order, as Python 3.7+ dicts do);
  * Python floats are modelled as rationals (`Rat`);
  * fallible steps are modelled with `Except` / `Option`, and external
    collaborators (HTTP endpoints, the LLM call, the vector index) are
    modelled as explicit inputs or oracles.

Each section names the source file and function it embeds.
-/

/-! ## Code points and Python-style strings -/

/-- A Python string: the list of its Unicode code points. -/
abbrev Str := List Nat

/-- Code points of a Lean string literal, used to transcribe the string
literals of the Python sources. -/
def S (s : String) : Str :=
  s.data.map Char.toNat

/-! ## Python values (JSON-like data), as passed around by the repository -/

/-- A Python/JSON value: strings, numbers (floats as rationals), booleans,
lists and dicts (association lists in insertion order). -/
inductive RVal where
  | str (s : Str)
  | num (q : Rat)
  | bool (b : Bool)
  | list (items : List RVal)
  | dict (entries : List (Str × RVal))
deriving Repr

/-- Python equality of a value against a string literal: true exactly for
the equal string (values of other types never equal a string). -/
def rvEqStr (v : RVal) (s : Str) : Bool :=
  match v with
  | .str t => t = s
  | _ => false

/-- Lookup of a key in a dict body, first match wins (Python dict keys are
unique, so this is plain dict lookup). -/
def rlookup (entries : List (Str × RVal)) (key : Str) : Option RVal :=
  match entries with
  | [] => none
  | (k, v) :: rest => if k = key then some v else rlookup rest key

/-- Python `key in d` for a dict body. -/
def hasKey (entries : List (Str × RVal)) (key : Str) : Bool :=
  (rlookup entries key).isSome

/-- Python `d.get(key, default)` for a dict body. -/
def pyGetD (entries : List (Str × RVal)) (key : Str) (dflt : RVal) : RVal :=
  (rlookup entries key).getD dflt

/-! ## src/utils/emoji_cleaner.py

`clean_emojis_from_text` first applies the 24 literal replacements of
`emoji_replacements` in dict (insertion) order via `str.replace`, then
deletes every character matched by the `emoji_pattern` character class.

The replacement keys are transcribed code point for code point from the
file as it is stored in the repository (the file is mojibake: each key is
a sequence of basic-multilingual-plane characters, e.g. the "red circle"
key is the four characters 011F 0178 201D 00B4, not an emoji). -/

/-- Removes the leading `k` from `s`: `some rest` when `s = k ++ rest`. -/
def stripPfx : Str → Str → Option Str
  | [], s => some s
  | _ :: _, [] => none
  | a :: ks, c :: s => if a = c then stripPfx ks s else none

/-- One step of Python `str.replace`, fuelled for structural recursion;
`pyReplace` always supplies fuel `≥` the length of the string, which by
`replaceFuel_congr` below is enough for the fuel never to run out. -/
def replaceFuel (k v : Str) : Nat → Str → Str
  | 0, s => s
  | fuel + 1, s =>
    match s with
    | [] => []
    | c :: rest =>
      match stripPfx k (c :: rest) with
      | some remaining => v ++ replaceFuel k v fuel remaining
      | none => c :: replaceFuel k v fuel rest

/-- Python `s.replace(k, v)` for a non-empty pattern `k`: replaces every
non-overlapping occurrence of `k` in `s` by `v`, scanning left to right.
(The sources only ever call `str.replace` with non-empty patterns; for
`k = []` this returns `s` unchanged.) -/
def pyReplace (k v s : Str) : Str :=
  if k = [] then s else replaceFuel k v s.length s

/-- The `emoji_replacements` dict of `clean_emojis_from_text`, in insertion
order, keys transcribed code point for code point from the source file. -/
def emojiReplacements : List (Str × Str) :=
  [ ([0x11F, 0x178, 0x201D, 0xB4], S "[HIGH RISK]"),
    ([0x11F, 0x178, 0x178, 0xA1], S "[MEDIUM RISK]"),
    ([0x11F, 0x178, 0x178, 0xA2], S "[LOW RISK]"),
    ([0xE2, 0x153, 0x2026], S "[OK]"),
    ([0xE2, 0x152], S "[FAIL]"),
    ([0xE2, 0x161, 0xA0, 0xEF, 0xB8], S "[WARNING]"),
    ([0x11F, 0x178, 0x161, 0xA8], S "[ALERT]"),
    ([0x11F, 0x178, 0x201C, 0x2C6], S "[INCREASING]"),
    ([0x11F, 0x178, 0x201C, 0x2030], S "[DECREASING]"),
    ([0x11F, 0x178, 0x201C, 0x160], S "[DATA]"),
    ([0x11F, 0x178, 0x201C, 0x2039], S "[REPORT]"),
    ([0x11F, 0x178, 0x201C, 0x201E], S "[DOCUMENT]"),
    ([0x11F, 0x178, 0x201D, 0xA7], S "[MAINTENANCE]"),
    ([0xE2, 0x161, 0x2122, 0xEF, 0xB8], S "[SETTINGS]"),
    ([0x11F, 0x178, 0x2019, 0xA1], S "[TIP]"),
    ([0x11F, 0x178, 0xAF], S "[TARGET]"),
    ([0x11F, 0x178, 0xAD], S "[FACTORY]"),
    ([0xE2, 0xB0], S "[TIME]"),
    ([0x11F, 0x178, 0x201D, 0x201E], S "[PROCESS]"),
    ([0x11F, 0x178, 0x201C, 0xA6], S "[PACKAGE]"),
    ([0xE2, 0xAD], S "[STAR]"),
    ([0x11F, 0x178, 0x2019, 0xAF], S "[100%]"),
    ([0x11F, 0x178, 0x2030], S "[SUCCESS]"),
    ([0x11F, 0x178, 0x201D], S "[SEARCH]") ]

/-- The character ranges of `emoji_pattern` (each singleton character of the
class is a one-element range), exactly as listed in the regex. -/
def emojiRanges : List (Nat × Nat) :=
  [ (0x1F600, 0x1F64F),
    (0x1F300, 0x1F5FF),
    (0x1F680, 0x1F6FF),
    (0x1F1E0, 0x1F1FF),
    (0x2500, 0x2BEF),
    (0x2702, 0x27B0),
    (0x2702, 0x27B0),
    (0x24C2, 0x1F251),
    (0x1F926, 0x1F937),
    (0x10000, 0x10FFFF),
    (0x2640, 0x2642),
    (0x2600, 0x2B55),
    (0x200D, 0x200D),
    (0x23CF, 0x23CF),
    (0x23E9, 0x23E9),
    (0x231A, 0x231A),
    (0xFE0F, 0xFE0F),
    (0x3030, 0x3030) ]

/-- Membership of one code point in the `emoji_pattern` character class. -/
def inEmojiClass (c : Nat) : Bool :=
  emojiRanges.any (fun p => decide (p.1 ≤ c) && decide (c ≤ p.2))

/-- The replacement pass of `clean_emojis_from_text`: applies every pair of
`emoji_replacements` in order. -/
def applyReplacements (s : Str) : Str :=
  emojiReplacements.foldl (fun acc p => pyReplace p.1 p.2 acc) s

/-- The body of `clean_emojis_from_text`: early return on a falsy (empty)
string, otherwise the replacement pass followed by `emoji_pattern.sub('')`
(deleting every character of the class). -/
def cleanEmojisFromText (text : Str) : Str :=
  if text = [] then text
  else (applyReplacements text).filter (fun c => !inEmojiClass c)

mutual

/-- The recursive structure walk of `clean_report_content`: strings are
cleaned by `clean_emojis_from_text`, dict values and list items recurse,
dict keys and every other value are kept as they are. -/
def cleanReportContent : RVal → RVal
  | .str s => .str (cleanEmojisFromText s)
  | .dict entries => .dict (cleanEntries entries)
  | .list items => .list (cleanItems items)
  | .num q => .num q
  | .bool b => .bool b

def cleanEntries : List (Str × RVal) → List (Str × RVal)
  | [] => []
  | (k, v) :: rest => (k, cleanReportContent v) :: cleanEntries rest

def cleanItems : List RVal → List RVal
  | [] => []
  | v :: rest => cleanReportContent v :: cleanItems rest

end

/-! ## src/data_collectors/classification_collector.py -/

/-- Python `isinstance(x, (int, float))` together with the numeric value
(`bool` is a subclass of `int` in Python, so booleans count as numbers). -/
def rvNum? : RVal → Option Rat
  | .num q => some q
  | .bool b => some (if b then 1 else 0)
  | _ => none

/-- The trend classification inside `_analyze_defect_predictions`
(lines 192-204): with at least two probabilities, compares the average of
the last three values (`defect_probs[-3:]`, divided by `min(3, len)`)
against 1.1 and 0.9 times the average of the first three values
(`defect_probs[:3]`, same divisor); with fewer than two values the trend
is "insufficient_data". -/
def defectTrend (defectProbs : List Rat) : String :=
  if 2 ≤ defectProbs.length then
    let recentAvg : Rat :=
      ((defectProbs.drop (defectProbs.length - 3)).sum) / ((min 3 defectProbs.length : Nat) : Rat)
    let earlierAvg : Rat :=
      ((defectProbs.take 3).sum) / ((min 3 defectProbs.length : Nat) : Rat)
    if recentAvg > earlierAvg * (11 / 10) then "increasing"
    else if recentAvg < earlierAvg * (9 / 10) then "decreasing"
    else "stable"
  else "insufficient_data"

/-- Average of the last three values of a list (of the whole list when it is
shorter), as the claims state it. -/
def lastThreeAvg (probs : List Rat) : Rat :=
  ((probs.drop (probs.length - 3)).sum) / ((min 3 probs.length : Nat) : Rat)

/-- Average of the first three values of a list (of the whole list when it
is shorter), as the claims state it. -/
def firstThreeAvg (probs : List Rat) : Rat :=
  ((probs.take 3).sum) / ((min 3 probs.length : Nat) : Rat)

/-- Outcome of one upstream HTTP GET as the collector sees it: a response
with a status code whose JSON body parses to a dict (`.ok`) or whose
reading/parsing raises (`.error` carries the message of the exception), or
a transport-level exception raised before any response. -/
inductive HttpOutcome where
  | resp (status : Nat) (body : Except Str (List (Str × RVal)))
  | exn (msg : Str)

/-- An upstream call that did not yield a parsed 200 response: non-200
status, malformed body, or a transport exception. -/
def isFailureOutcome : HttpOutcome → Bool
  | .resp 200 (.ok _) => false
  | _ => true

/-- Code points of `toString n` (decimal), for Python f-string
interpolation of an integer. -/
def natStr (n : Nat) : Str :=
  S (toString n)

/-- The body of `_collect_defect_data` (lines 53-79): on a 200 response
with a parsed body, the normalized success record with sentinel defaults
for missing fields; on any other status, an error record with the string
"HTTP status"; on a raised exception (transport or body parsing), an
error record with the exception message. Never raises. -/
def collectDefectData (apiBase : Str) (o : HttpOutcome) : RVal :=
  match o with
  | .resp status body =>
    if status = 200 then
      match body with
      | .ok data =>
        .dict [ (S "api_status", .str (S "success")),
                (S "defect_probability", pyGetD data (S "defect_probability") (.num 0)),
                (S "risk_level", pyGetD data (S "risk_level") (.str (S "unknown"))),
                (S "confidence", pyGetD data (S "confidence") (.num 0)),
                (S "model_info", pyGetD data (S "model_info") (.dict [])),
                (S "features_used", pyGetD data (S "features_used") (.list [])) ]
      | .error e =>
        .dict [ (S "api_status", .str (S "error")),
                (S "error", .str e),
                (S "endpoint", .str (apiBase ++ S "/api/defect")) ]
    else
      .dict [ (S "api_status", .str (S "error")),
              (S "error", .str (S "HTTP " ++ natStr status)),
              (S "endpoint", .str (apiBase ++ S "/api/defect")) ]
  | .exn e =>
    .dict [ (S "api_status", .str (S "error")),
            (S "error", .str e),
            (S "endpoint", .str (apiBase ++ S "/api/defect")) ]

/-- The body of `_collect_quality_data` (lines 81-107), the quality twin of
`collectDefectData`. -/
def collectQualityData (apiBase : Str) (o : HttpOutcome) : RVal :=
  match o with
  | .resp status body =>
    if status = 200 then
      match body with
      | .ok data =>
        .dict [ (S "api_status", .str (S "success")),
                (S "quality_class", pyGetD data (S "quality_class") (.str (S "unknown"))),
                (S "confidence", pyGetD data (S "confidence") (.num 0)),
                (S "class_probabilities", pyGetD data (S "class_probabilities") (.dict [])),
                (S "model_info", pyGetD data (S "model_info") (.dict [])),
                (S "features_used", pyGetD data (S "features_used") (.list [])) ]
      | .error e =>
        .dict [ (S "api_status", .str (S "error")),
                (S "error", .str e),
                (S "endpoint", .str (apiBase ++ S "/api/quality")) ]
    else
      .dict [ (S "api_status", .str (S "error")),
              (S "error", .str (S "HTTP " ++ natStr status)),
              (S "endpoint", .str (apiBase ++ S "/api/quality")) ]
  | .exn e =>
    .dict [ (S "api_status", .str (S "error")),
            (S "error", .str e),
            (S "endpoint", .str (apiBase ++ S "/api/quality")) ]

/-- `_add_to_history` (lines 357-363): append, then keep only the last
`max_history` records when the length exceeds it. -/
def addToHistory (maxHistory : Nat) (record : RVal) (hist : List RVal) : List RVal :=
  let appended := hist ++ [record]
  if maxHistory < appended.length then appended.drop (appended.length - maxHistory)
  else appended

/-- The body of `collect_data` (lines 29-51): builds the classification
record from both sub-collections and appends it to the history
(`max_history = 100`). The sub-collections catch their own exceptions, so
the record construction is total and the outer `except` branch (the
`error_record`) is unreachable in this model. Returns the record and the
new history. -/
def collectClassificationData (apiBase now : Str) (defectOutcome qualityOutcome : HttpOutcome)
    (hist : List RVal) : RVal × List RVal :=
  let record : RVal :=
    .dict [ (S "timestamp", .str now),
            (S "defect_prediction", collectDefectData apiBase defectOutcome),
            (S "quality_prediction", collectQualityData apiBase qualityOutcome) ]
  (record, addToHistory 100 record hist)

/-! ## src/report_generators/quality_report.py, metric extraction -/

/-- The argument `_extract_real_metrics` receives from
`_collect_comprehensive_data`: per source either `none` (the collector left
the key `None` / absent) or the parsed JSON dict of the source, plus the
`collection_errors` list and the collection timestamp. -/
structure CollectedData where
  timestamp : Option RVal
  classification : Option (List (Str × RVal))
  forecasting : Option (List (Str × RVal))
  quality : Option (List (Str × RVal))
  rlActions : Option (List (Str × RVal))
  collectionErrors : List RVal

/-- The per-source success test of `_extract_real_metrics`:
`collected_data.get(src) and 'error' not in collected_data[src]` — the
value must be truthy (a non-empty dict) and carry no "error" key. -/
def sourceSuccessful (o : Option (List (Str × RVal))) : Bool :=
  match o with
  | none => false
  | some es => !es.isEmpty && !hasKey es (S "error")

/-- The metrics dict `_extract_real_metrics` builds (the forecast and RL
sub-dicts keep the raw field values; their f-string renderings, pure
presentation, are not modeled). -/
structure QCMetrics where
  dataCollectionTime : Option RVal
  totalPredictions : Nat
  defectRates : List (Str × RVal)
  defectProbability : Option RVal
  riskClassification : Option RVal
  qualityScores : List (Str × RVal)
  forecastAccuracy : List (Str × RVal)
  rlPerformance : List (Str × RVal)
  collectionSuccessRate : Rat
  healthStatus : Str
  healthErrors : Nat
  healthSuccessful : Nat
  healthTotalSources : Nat

/-- The status chain of lines 259-266 of `_extract_real_metrics`: all four
sources successful with no recorded errors is healthy; at least three
successful is healthy with at most one error and degraded otherwise; at
least two successful is degraded; anything less is critical. -/
def systemHealthStatus (successfulCollections errorCount : Nat) : Str :=
  if successfulCollections = 4 && errorCount = 0 then S "healthy"
  else if 3 ≤ successfulCollections then
    (if errorCount ≤ 1 then S "healthy" else S "degraded")
  else if 2 ≤ successfulCollections then S "degraded"
  else S "critical"

/-- The body of `_extract_real_metrics` (lines 146-277): counts the
sources passing `sourceSuccessful`, extracts per-source metrics, and
computes `collection_success_rate = successful/4*100` and the
`system_health.overall_status` via the nested thresholds of lines 259-266.
The internal `try` never fires in this model (every step is total). -/
def extractRealMetrics (cd : CollectedData) : QCMetrics :=
  let classOk := sourceSuccessful cd.classification
  let qualityOk := sourceSuccessful cd.quality
  let forecastOk := sourceSuccessful cd.forecasting
  let rlOk := sourceSuccessful cd.rlActions
  let classEntries := cd.classification.getD []
  let defectProb := pyGetD classEntries (S "defect_probability") (.num 0)
  let defectRates : List (Str × RVal) :=
    if classOk then
      match rvNum? defectProb with
      | some p =>
        if p > 3 / 5 then [(S "high_risk", .num 1)]
        else if p > 3 / 10 then [(S "medium_risk", .num 1)]
        else [(S "low_risk", .num 1)]
      | none => []
    else []
  let totalPredictions : Nat :=
    if classOk then (match rvNum? defectProb with | some _ => 1 | none => 0) else 0
  let qualityEntries := cd.quality.getD []
  let qualityClass := pyGetD qualityEntries (S "quality_class") (.str (S "unknown"))
  let qualityScore : Rat :=
    if rvEqStr qualityClass (S "High") then 9 / 10
    else if rvEqStr qualityClass (S "Medium") then 7 / 10
    else if rvEqStr qualityClass (S "Low") then 2 / 5
    else 0
  let forecastEntries := cd.forecasting.getD []
  let forecastList : List RVal :=
    match pyGetD forecastEntries (S "forecast") (.list []) with
    | .list items => items
    | _ => []
  let rlEntries := cd.rlActions.getD []
  let successfulCollections : Nat :=
    (if classOk then 1 else 0) + (if qualityOk then 1 else 0) +
    (if forecastOk then 1 else 0) + (if rlOk then 1 else 0)
  let errorCount := cd.collectionErrors.length
  let status : Str := systemHealthStatus successfulCollections errorCount
  { dataCollectionTime := cd.timestamp
    totalPredictions := totalPredictions
    defectRates := defectRates
    defectProbability := if classOk then some defectProb else none
    riskClassification :=
      if classOk then some (pyGetD classEntries (S "risk_level") (.str (S "unknown"))) else none
    qualityScores :=
      if qualityOk then
        [ (S "overall_score", .num qualityScore),
          (S "batch_quality", qualityClass),
          (S "quality_confidence", pyGetD qualityEntries (S "confidence") (.num 0)),
          (S "class_probabilities", pyGetD qualityEntries (S "class_probabilities") (.dict [])) ]
      else []
    forecastAccuracy :=
      if forecastOk then
        [ (S "prediction_horizon", pyGetD forecastEntries (S "forecast_horizon") (.num 30)),
          (S "forecast_confidence", .num (17 / 20)),
          (S "predicted_values", .list (forecastList.take 5)),
          (S "total_forecast_points", .num forecastList.length),
          (S "data_source_status", pyGetD forecastEntries (S "data_sources") (.dict [])) ]
      else []
    rlPerformance :=
      if rlOk then
        [ (S "action_confidence", .num (4 / 5)),
          (S "expected_reward", .num (3 / 4)),
          (S "model_type", pyGetD rlEntries (S "model_type") (.str (S "unknown"))),
          (S "state_summary", pyGetD rlEntries (S "state_summary") (.dict [])),
          (S "raw_actions", pyGetD rlEntries (S "recommended_actions") (.dict [])) ]
      else []
    collectionSuccessRate := (successfulCollections : Rat) / 4 * 100
    healthStatus := status
    healthErrors := errorCount
    healthSuccessful := successfulCollections
    healthTotalSources := 4 }

/-- The number of sources of a collected-data input that the code counts as
successful (truthy dict with no "error" key). -/
def codeSuccessCount (cd : CollectedData) : Nat :=
  (if sourceSuccessful cd.classification then 1 else 0) +
  (if sourceSuccessful cd.quality then 1 else 0) +
  (if sourceSuccessful cd.forecasting then 1 else 0) +
  (if sourceSuccessful cd.rlActions then 1 else 0)

/-- The claim C1 success test as literally stated: the source is present
and carries no "error" key (an empty dict passes this test but fails the
truthiness test of the code). -/
def claimSourceSuccessful (o : Option (List (Str × RVal))) : Bool :=
  match o with
  | none => false
  | some es => !hasKey es (S "error")

/-- The number of successful sources under the literal claim C1 reading. -/
def claimSuccessCount (cd : CollectedData) : Nat :=
  (if claimSourceSuccessful cd.classification then 1 else 0) +
  (if claimSourceSuccessful cd.quality then 1 else 0) +
  (if claimSourceSuccessful cd.forecasting then 1 else 0) +
  (if claimSourceSuccessful cd.rlActions then 1 else 0)

/-- The overall-status table exactly as claim C1 states it: healthy when
K = 4 and E = 0; healthy when K ≥ 3 and E ≤ 1; degraded when K ≥ 3 and
E > 1; degraded when K = 2; critical when K ≤ 1. -/
def claimHealthStatus (k e : Nat) : Str :=
  if k = 4 && e = 0 then S "healthy"
  else if 3 ≤ k && e ≤ 1 then S "healthy"
  else if 3 ≤ k then S "degraded"
  else if k = 2 then S "degraded"
  else S "critical"

/-! ## src/report_generators/base_generator.py, extract_key_metrics -/

/-- The argument of `BaseReportGenerator.extract_key_metrics`: per source
either absent from the collected dict or its parsed JSON dict (note: this
function tests presence with `in`, not truthiness, unlike
`_extract_real_metrics`). -/
structure BaseCollectedData where
  classification : Option (List (Str × RVal))
  quality : Option (List (Str × RVal))
  forecasting : Option (List (Str × RVal))
  rlActions : Option (List (Str × RVal))

/-- The per-source test of `extract_key_metrics`:
`src in collected_data and 'error' not in collected_data[src]`. -/
def baseSourceOk (o : Option (List (Str × RVal))) : Bool :=
  match o with
  | none => false
  | some es => !hasKey es (S "error")

/-- The metrics dict `extract_key_metrics` builds: optional fields are the
keys set only when their source branch ran. -/
structure KeyMetrics where
  defectProbability : Option RVal
  riskLevel : Str
  confidenceScore : Option RVal
  qualityClass : Option RVal
  qualityConfidence : Option RVal
  forecastHorizon : Option RVal
  forecastPoints : Option Nat
  recommendedActions : Option RVal
  modelType : Option RVal

/-- The body of `extract_key_metrics` (lines 108-158): per-source field
extraction with "N/A" defaults, then the unconditional recomputation of
`risk_level` from `metrics.get('defect_probability', 0)` via the fixed
thresholds of lines 139-152 (overwriting any API-supplied risk level). -/
def extractKeyMetrics (cd : BaseCollectedData) : KeyMetrics :=
  let classEntries : Option (List (Str × RVal)) :=
    match cd.classification with
    | some es => if baseSourceOk (some es) then some es else none
    | none => none
  let qualityEntries : Option (List (Str × RVal)) :=
    match cd.quality with
    | some es => if baseSourceOk (some es) then some es else none
    | none => none
  let forecastEntries : Option (List (Str × RVal)) :=
    match cd.forecasting with
    | some es => if baseSourceOk (some es) then some es else none
    | none => none
  let rlEntries : Option (List (Str × RVal)) :=
    match cd.rlActions with
    | some es => if baseSourceOk (some es) then some es else none
    | none => none
  let defectProbability :=
    classEntries.map (fun es => pyGetD es (S "defect_probability") (.str (S "N/A")))
  let defectProb := defectProbability.getD (.num 0)
  let riskLevel : Str :=
    match rvNum? defectProb with
    | some p =>
      if p > 4 / 5 then S "Critical"
      else if p > 3 / 5 then S "High"
      else if p > 2 / 5 then S "Medium"
      else if p > 1 / 5 then S "Low"
      else S "Very Low"
    | none => S "Unknown"
  { defectProbability := defectProbability
    riskLevel := riskLevel
    confidenceScore := classEntries.map (fun es => pyGetD es (S "confidence") (.str (S "N/A")))
    qualityClass := qualityEntries.map (fun es => pyGetD es (S "quality_class") (.str (S "N/A")))
    qualityConfidence := qualityEntries.map (fun es => pyGetD es (S "confidence") (.str (S "N/A")))
    forecastHorizon := forecastEntries.map (fun es => pyGetD es (S "forecast_horizon") (.str (S "N/A")))
    forecastPoints :=
      forecastEntries.map (fun es =>
        match pyGetD es (S "forecast") (.list []) with
        | .list items => items.length
        | _ => 0)
    recommendedActions := rlEntries.map (fun es => pyGetD es (S "recommended_actions") (.str (S "N/A")))
    modelType := rlEntries.map (fun es => pyGetD es (S "model_type") (.str (S "N/A"))) }

/-- The risk-level threshold table as claim C10 states it. -/
def claimRiskOf (p : Rat) : Str :=
  if p > 4 / 5 then S "Critical"
  else if p > 3 / 5 then S "High"
  else if p > 2 / 5 then S "Medium"
  else if p > 1 / 5 then S "Low"
  else S "Very Low"

/-! ## src/knowledge_base/knowledge_manager.py -/

/-- Python string comparison `s < t`: lexicographic on code points. -/
def strLtCp : Str → Str → Bool
  | [], [] => false
  | [], _ :: _ => true
  | _ :: _, [] => false
  | a :: s, b :: t => if a < b then true else if b < a then false else strLtCp s t

/-- One stored document of a vector-store collection: its id, its text and
the timestamp entry of its metadata record. The timestamp is the only
metadata field `cleanup_old_embeddings` reads (via
`metadata.get('timestamp', '')`, so an absent timestamp reads as the empty
string); the add operations always store it as a string. -/
structure KBDoc where
  docId : Str
  content : Str
  tsMeta : Option Str
deriving Repr, DecidableEq

/-- The `KnowledgeBaseManager` state: the embedding model (`none` when
`SentenceTransformer` failed to load), the ChromaDB client (`none` when its
initialisation failed) and the named collections. -/
structure KBState where
  embeddingModel : Option (Str → List Rat)
  client : Option Unit
  collections : List (String × List KBDoc)

/-- Lookup of a named collection (`self.collections[name]`, with `none`
standing for the `KeyError` / `name not in self.collections` case). -/
def findCollection : List (String × List KBDoc) → String → Option (List KBDoc)
  | [], _ => none
  | (n, docs) :: rest, name => if n = name then some docs else findCollection rest name

/-- Replaces the named collection by the given document list. -/
def setCollection (colls : List (String × List KBDoc)) (name : String) (docs : List KBDoc) :
    List (String × List KBDoc) :=
  colls.map (fun p => if p.1 = name then (p.1, docs) else p)

/-- The body of `add_documentation` (lines 94-122): `False` without any
change when the embedding model or the client is unavailable; otherwise
embeds the content and appends the document to the "documentation"
collection with `metadata = {type, timestamp: now, **metadata}` (so a
caller-supplied timestamp overrides `now`) and id
`doc_type_strftime-of-now` (the formatted clock, a parameter here), and
returns `True`. A missing "documentation" collection raises `KeyError`,
caught by the `except`, hence `False`. -/
def addDocumentation (st : KBState) (docType content : Str) (metadataTs : Option Str)
    (now : Str) : Bool × KBState :=
  if st.embeddingModel.isNone || st.client.isNone then (false, st)
  else
    match findCollection st.collections "documentation" with
    | none => (false, st)
    | some docs =>
      let doc : KBDoc :=
        { docId := docType ++ S "_" ++ now
          content := content
          tsMeta := some (metadataTs.getD now) }
      (true, { st with collections := setCollection st.collections "documentation" (docs ++ [doc]) })

/-- The body of `add_historical_data` (lines 56-92): `False` without any
change when the embedding model or the client is unavailable; `False` when
the formatted text (`_format_data_as_text(data)`, a pure string formatter
whose output is taken as the `textContent` input here) is empty; otherwise
appends the document to the "historical_data" collection with timestamp
`data.get('collection_timestamp', now)` and returns `True`. -/
def addHistoricalData (st : KBState) (dataType textContent : Str)
    (collectionTimestamp : Option Str) (now : Str) : Bool × KBState :=
  if st.embeddingModel.isNone || st.client.isNone then (false, st)
  else if textContent = [] then (false, st)
  else
    match findCollection st.collections "historical_data" with
    | none => (false, st)
    | some docs =>
      let doc : KBDoc :=
        { docId := dataType ++ S "_" ++ now
          content := textContent
          tsMeta := some (collectionTimestamp.getD now) }
      (true,
        { st with collections := setCollection st.collections "historical_data" (docs ++ [doc]) })

/-- One entry of the list `search_relevant_context` returns. -/
structure SearchItem where
  content : RVal
  metadata : RVal
  distance : Rat
  relevanceScore : Rat
deriving Repr

/-- The body of `search_relevant_context` (lines 124-160): the empty list
when the embedding model, the client or the named collection is missing,
or when the vector index returned no documents; otherwise zips the
documents, metadatas and distances the index returned (the reply of
`collection.query`, passed in here), attaches
`relevance_score = 1 - distance` to each, and sorts ascending by distance
(Python `list.sort`, a stable sort). -/
def searchRelevantContext (st : KBState) (collection : String)
    (documents metadatas : List RVal) (distances : List Rat) : List SearchItem :=
  if st.embeddingModel.isNone || st.client.isNone ||
      (findCollection st.collections collection).isNone then []
  else if documents.isEmpty then []
  else
    let items : List SearchItem :=
      (documents.zip (metadatas.zip distances)).map
        (fun t => { content := t.1, metadata := t.2.1, distance := t.2.2,
                    relevanceScore := 1 - t.2.2 })
    items.mergeSort (fun a b => decide (a.distance ≤ b.distance))

/-- The per-collection body of `cleanup_old_embeddings` (lines 440-453):
collects the ids of the documents whose stored timestamp string is
lexically smaller than the cutoff string (plain string `<`), then deletes
the documents with those ids (`collection.delete(ids=old_ids)`); nothing
is deleted when no document is old. -/
def cleanupCollection (cutoff : Str) (docs : List KBDoc) : List KBDoc :=
  let oldIds := (docs.filter (fun d => strLtCp (d.tsMeta.getD []) cutoff)).map (fun d => d.docId)
  if oldIds.isEmpty then docs
  else docs.filter (fun d => !(oldIds.contains d.docId))

/-- The body of `cleanup_old_embeddings` (lines 430-456): returns without
touching anything when the client is unavailable (the embedding model is
NOT checked), otherwise applies the per-collection cleanup to every
collection. The cutoff string is
`(datetime.now() - timedelta(days=days_to_keep)).isoformat()`, computed
outside this model and passed in. -/
def cleanupOldEmbeddings (st : KBState) (cutoffTimestamp : Str) : KBState :=
  if st.client.isNone then st
  else
    { st with
      collections := st.collections.map (fun p => (p.1, cleanupCollection cutoffTimestamp p.2)) }

/-! ## src/llm_integration/gemini_client.py -/

/-- Outcome of one call of the external `model.generate_content`: the
generated text, or a raised exception with its message. -/
inductive GenOutcome where
  | ok (content : Str)
  | fail (err : Str)

/-- Lower-casing of one ASCII code point (the rate-limit probe only looks
for the ASCII word "quota"). -/
def asciiLower (c : Nat) : Nat :=
  if 65 ≤ c && c ≤ 90 then c + 32 else c

/-- Python `pat in s` (substring containment). -/
def containsSub (pat : Str) : Str → Bool
  | [] => pat.isEmpty
  | c :: rest => pat.isPrefixOf (c :: rest) || containsSub pat rest

/-- The rate-limit test of `generate_comprehensive_report` (line 107):
`"429" in error_str or "quota" in error_str.lower()`. -/
def isRateLimitError (e : Str) : Bool :=
  containsSub (S "429") e || containsSub (S "quota") (e.map asciiLower)

/-- The dict `generate_comprehensive_report` returns when it returns one:
the success dict (its content and the 1-based attempt number; the
markdown re-spacing of `_clean_and_format_content` and the token estimate
are presentation metadata, not modeled) or the error dict that carries the
deterministic fallback content. -/
inductive GeminiResult where
  | success (content : Str) (attempt : Nat)
  | errorResult (error : Str) (content : Str)
deriving Repr, DecidableEq

/-- Upper-casing of one ASCII code point. -/
def asciiUpper (c : Nat) : Nat :=
  if 97 ≤ c && c ≤ 122 then c - 32 else c

/-- ASCII letter test, the cased-character notion `str.title` uses on the
ASCII report-type names of this code base. -/
def asciiIsAlpha (c : Nat) : Bool :=
  (65 ≤ c && c ≤ 90) || (97 ≤ c && c ≤ 122)

/-- Helper of `pyTitle`: the flag records whether the previous character
was a letter. -/
def pyTitleAux : Bool → Str → Str
  | _, [] => []
  | prevAlpha, c :: rest =>
    (if asciiIsAlpha c then (if prevAlpha then asciiLower c else asciiUpper c) else c)
      :: pyTitleAux (asciiIsAlpha c) rest

/-- Python `str.title()` over ASCII. -/
def pyTitle (s : Str) : Str :=
  pyTitleAux false s

/-- Python `s.replace('_', ' ')`. -/
def underscoresToSpaces (s : Str) : Str :=
  s.map (fun c => if c = 95 then 32 else c)

/-- The body of `_generate_fallback_content` (lines 489-519): the fixed
fallback text block, with the report type title-cased and the formatted
clock interpolated. -/
def generateFallbackContent (reportType now : Str) : Str :=
  S "# " ++ pyTitle (underscoresToSpaces reportType) ++ S " Report\n\n**Generated:** " ++ now ++
  S "\n**Status:** Fallback Mode - Gemini API Unavailable\n\n## Executive Summary\nThis report was generated in fallback mode due to Gemini API service unavailability.\n\n## Current Status\n- System Status: Monitoring\n- Data Collection: Active\n- Analysis: Manual review recommended\n\n## Recommendations\n- Verify Gemini API service connectivity\n- Check API key configuration\n- Perform manual analysis\n- Contact system administrator\n\n## Compliance Status\n- Documentation: Complete\n- Audit Trail: Maintained\n- Manual verification required\n\n*This is an automated fallback response. Manual review recommended.*"

/-- The `for attempt in range(3)` retry loop of
`generate_comprehensive_report` in compact mode (`use_compact_mode=True`):
`remaining` counts the loop iterations still available (3 at entry),
`attempt` the current 0-based index, `call` the index of the next
`generate_content` invocation in the oracle. Rate-limit errors retry
(after the `time.sleep` backoff, irrelevant to the value computed); the
final rate-limited attempt and every non-rate-limit error `break` out of
the loop, after which the function body ends with no return statement:
the `none` results model Python returning `None`. -/
def geminiAttemptsCompact (oracle : Nat → GenOutcome) (call attempt : Nat) :
    Nat → Option GeminiResult
  | 0 => none
  | remaining + 1 =>
    match oracle call with
    | .ok content => some (.success content (attempt + 1))
    | .fail e =>
      if isRateLimitError e then
        if 0 < remaining then geminiAttemptsCompact oracle (call + 1) (attempt + 1) remaining
        else none
      else none

/-- The same retry loop with `use_compact_mode=False`: the last rate-limited
attempt recurses once into compact mode (fresh loop, subsequent oracle
calls) instead of breaking. -/
def geminiAttemptsFull (oracle : Nat → GenOutcome) (call attempt : Nat) :
    Nat → Option GeminiResult
  | 0 => none
  | remaining + 1 =>
    match oracle call with
    | .ok content => some (.success content (attempt + 1))
    | .fail e =>
      if isRateLimitError e then
        if 0 < remaining then geminiAttemptsFull oracle (call + 1) (attempt + 1) remaining
        else geminiAttemptsCompact oracle (call + 1) 0 3
      else none

/-- The body of `generate_comprehensive_report` (lines 49-132): when
`is_available()` is false, the error dict carrying the deterministic
fallback content; otherwise the retry loop (`max_retries = 3`) over the
oracle of `generate_content` outcomes. `none` models the implicit `None`
Python returns when the loop breaks (prompt building, which cannot raise
in this model, is what the outer `except` guards). -/
def generateComprehensiveReport (available : Bool) (oracle : Nat → GenOutcome)
    (reportType now : Str) (useCompactMode : Bool) : Option GeminiResult :=
  if !available then
    some (.errorResult (S "Gemini client not available") (generateFallbackContent reportType now))
  else if useCompactMode then geminiAttemptsCompact oracle 0 0 3
  else geminiAttemptsFull oracle 0 0 3

/-! ## src/report_generators/quality_report.py, generate_report -/

/-- The body of `_generate_emergency_report` (lines 1742-1776): the fixed
emergency dict carrying the captured error message; `now` and `reportId`
stand for the two `datetime.now()` renderings. -/
def generateEmergencyReport (errorMessage now reportId : Str) : RVal :=
  .dict [
    (S "title", .str (S "Emergency Quality Control Report")),
    (S "generated_at", .str now),
    (S "report_id", .str reportId),
    (S "status", .str (S "error")),
    (S "error_message", .str errorMessage),
    (S "executive_summary", .str (S "Report generation failed due to system error: " ++
      errorMessage ++ S ". Emergency procedures should be initiated to restore monitoring capabilities.")),
    (S "quality_metrics", .dict [
      (S "error", .str errorMessage),
      (S "system_status", .str (S "failed")),
      (S "data_collection_time", .str now) ]),
    (S "detailed_analysis", .str (S "Unable to complete analysis due to system failure. Manual quality checks recommended.")),
    (S "recommendations", .list [
      .str (S "Investigate system error immediately"),
      .str (S "Implement manual quality monitoring procedures"),
      .str (S "Contact technical support for system restoration"),
      .str (S "Document all manual quality checks until system recovery") ]),
    (S "compliance_status", .str (S "UNABLE TO ASSESS - System failure prevents compliance monitoring")),
    (S "risk_assessment", .str (S "HIGH RISK - Quality monitoring system failure requires immediate attention")),
    (S "action_items", .list [
      .str (S "CRITICAL: Restore quality monitoring system"),
      .str (S "URGENT: Implement emergency quality procedures"),
      .str (S "HIGH: Contact technical support"),
      .str (S "MEDIUM: Document all manual processes") ]),
    (S "appendix", .dict [
      (S "error_details", .str errorMessage),
      (S "methodology", .str (S "Emergency report generation due to system failure")),
      (S "recommendations", .str (S "Restore normal system operation as soon as possible")) ]) ]

/-- What a successful run of the `generate_report` try-block produced
before the final report dict is assembled: the report content dict (from
the LLM parse or the template fallback) and the values of the helper
calls (each a total formatting function over the collected data). -/
structure PipelineData where
  dataSources : RVal
  fullContent : RVal
  reportContent : List (Str × RVal)
  metrics : RVal
  rawSummary : RVal
  freshness : RVal

/-- The report dict assembled at lines 67-85 of `generate_report`. -/
def buildQualityControlReport (now reportId : Str) (pd : PipelineData) : RVal :=
  .dict [
    (S "title", .str (S "Pharmaceutical Manufacturing Quality Control Report")),
    (S "generated_at", .str now),
    (S "report_id", .str reportId),
    (S "data_sources", pd.dataSources),
    (S "report_content", pd.fullContent),
    (S "executive_summary", pyGetD pd.reportContent (S "executive_summary") (.str [])),
    (S "quality_metrics", pd.metrics),
    (S "detailed_analysis", pyGetD pd.reportContent (S "detailed_analysis") (.str [])),
    (S "recommendations", pyGetD pd.reportContent (S "recommendations") (.list [])),
    (S "compliance_status", pyGetD pd.reportContent (S "compliance_status") (.str [])),
    (S "risk_assessment", pyGetD pd.reportContent (S "risk_assessment") (.str [])),
    (S "action_items", pyGetD pd.reportContent (S "action_items") (.list [])),
    (S "appendix", .dict [
      (S "raw_data_summary", pd.rawSummary),
      (S "methodology", .str (S "Real-time data collection with ML model predictions")),
      (S "data_freshness", pd.freshness) ]) ]

/-- The body of `generate_report` (lines 39-96): the try-block either
completes (`.ok`: collection, metric extraction, LLM-or-template content
and the helper calls all ran; their joint result is a `PipelineData`) and
the assembled report is emoji-cleaned and returned, or some step raises
(`.error` carries `str(e)`) and the `except` arm returns the emergency
report. Lean totality of this function is the embedded form of "no
exception escapes to the caller". -/
def generateQualityControlReport (now reportId : Str) (pipeline : Except Str PipelineData) : RVal :=
  match pipeline with
  | .ok pd => cleanReportContent (buildQualityControlReport now reportId pd)
  | .error e => generateEmergencyReport e now reportId

/-- The keys every report returned by `generate_report` carries (both the
normal and the emergency shape). -/
def reportCoreKeys : List Str :=
  [ S "title", S "generated_at", S "report_id", S "executive_summary", S "quality_metrics",
    S "detailed_analysis", S "recommendations", S "compliance_status", S "risk_assessment",
    S "action_items", S "appendix" ]

/-- A well-formed report artifact: a dict carrying every core report key. -/
def wellFormedReport (r : RVal) : Bool :=
  match r with
  | .dict entries => reportCoreKeys.all (fun k => hasKey entries k)
  | _ => false

/-! # Theorems -/

/-! ## Helper lemmas -/

lemma firstThreeAvg_nonneg (probs : List Rat) (hpos : ∀ p ∈ probs, 0 ≤ p) :
    0 ≤ firstThreeAvg probs := by
  unfold firstThreeAvg
  apply div_nonneg
  · exact List.sum_nonneg (fun p hp => hpos p (List.take_subset 3 probs hp))
  · positivity

/-! ## C7: the trend classification of the classification collector -/

/-- C7: for a list of at least two nonnegative defect probabilities the
trend is "increasing" exactly when the average of the last three values
exceeds 1.1 times the average of the first three, "decreasing" exactly
when it is below 0.9 times that average, and "stable" otherwise; with
fewer than two values it is "insufficient_data". -/
theorem c7_trend_classification (probs : List Rat) (hpos : ∀ p ∈ probs, 0 ≤ p) :
    (2 ≤ probs.length →
      ((defectTrend probs = "increasing" ↔
          lastThreeAvg probs > 11 / 10 * firstThreeAvg probs) ∧
       (defectTrend probs = "decreasing" ↔
          lastThreeAvg probs < 9 / 10 * firstThreeAvg probs) ∧
       (defectTrend probs = "stable" ↔
          (¬ lastThreeAvg probs > 11 / 10 * firstThreeAvg probs ∧
           ¬ lastThreeAvg probs < 9 / 10 * firstThreeAvg probs)))) ∧
    (probs.length < 2 → defectTrend probs = "insufficient_data") := by
  have havg : 0 ≤ firstThreeAvg probs := firstThreeAvg_nonneg probs hpos
  constructor
  · intro hlen
    have hfold :
        defectTrend probs =
          if lastThreeAvg probs > firstThreeAvg probs * (11 / 10) then "increasing"
          else if lastThreeAvg probs < firstThreeAvg probs * (9 / 10) then "decreasing"
          else "stable" := by
      unfold defectTrend lastThreeAvg firstThreeAvg
      rw [if_pos hlen]
    have hord : firstThreeAvg probs * (9 / 10) ≤ firstThreeAvg probs * (11 / 10) := by
      nlinarith
    rw [hfold]
    by_cases h1 : lastThreeAvg probs > firstThreeAvg probs * (11 / 10)
    · have h2 : ¬ lastThreeAvg probs < firstThreeAvg probs * (9 / 10) := by
        push_neg
        linarith
      rw [if_pos h1]
      refine ⟨?_, ?_, ?_⟩ <;> simp [mul_comm, h1, h2]
    · rw [if_neg h1]
      by_cases h2 : lastThreeAvg probs < firstThreeAvg probs * (9 / 10)
      · rw [if_pos h2]
        refine ⟨?_, ?_, ?_⟩ <;> simp [mul_comm, h1, h2]
      · rw [if_neg h2]
        refine ⟨?_, ?_, ?_⟩ <;> simp [mul_comm, h1, h2]
  · intro hlen
    unfold defectTrend
    rw [if_neg (by omega)]

/-- C7 witness: the theorem applied at a concrete six-point list whose
last-three average 6/10 exceeds 1.1 times its first-three average 1/10. -/
theorem c7_trend_classification_witness :
    defectTrend [1 / 10, 1 / 10, 1 / 10, 6 / 10, 6 / 10, 6 / 10] = "increasing" := by
  have h := c7_trend_classification [1 / 10, 1 / 10, 1 / 10, 6 / 10, 6 / 10, 6 / 10] (by norm_num)
  have h2 := (h.1 (by norm_num)).1
  rw [h2]
  norm_num [lastThreeAvg, firstThreeAvg]

/-! ## C10: risk-level thresholds of extract_key_metrics -/

/-- C10: extract_key_metrics recomputes risk_level from the extracted
defect probability alone whenever that value is numeric (overwriting any
API-supplied risk level); with no classification source collected the
probability defaults to 0 and the risk level is "Very Low"; a collected
classification dict without the defect_probability field yields "Unknown". -/
theorem c10_risk_level_thresholds (cd : BaseCollectedData) :
    (∀ es p, cd.classification = some es → hasKey es (S "error") = false →
      rvNum? (pyGetD es (S "defect_probability") (.str (S "N/A"))) = some p →
      (extractKeyMetrics cd).riskLevel = claimRiskOf p) ∧
    (cd.classification = none → (extractKeyMetrics cd).riskLevel = S "Very Low") ∧
    (∀ es, cd.classification = some es → hasKey es (S "error") = false →
      rlookup es (S "defect_probability") = none →
      (extractKeyMetrics cd).riskLevel = S "Unknown") := by
  refine ⟨?_, ?_, ?_⟩
  · intro es p hcl herr hnum
    simp [extractKeyMetrics, hcl, baseSourceOk, herr, hnum, claimRiskOf]
  · intro hcl
    have h0 : rvNum? (RVal.num 0) = some 0 := rfl
    simp [extractKeyMetrics, hcl, h0]
    norm_num
  · intro es hcl herr hmiss
    have hna : rvNum? (RVal.str (S "N/A")) = none := rfl
    simp [extractKeyMetrics, hcl, baseSourceOk, herr, pyGetD, hmiss, hna]

/-- C10 witness: the theorem applied at a concrete collected dict whose
defect probability 9/10 crosses the Critical threshold. -/
theorem c10_risk_level_thresholds_witness :
    (extractKeyMetrics
      { classification := some [(S "defect_probability", RVal.num (9 / 10))],
        quality := none, forecasting := none, rlActions := none }).riskLevel = S "Critical" := by
  have h := (c10_risk_level_thresholds
    { classification := some [(S "defect_probability", RVal.num (9 / 10))],
      quality := none, forecasting := none, rlActions := none }).1
    [(S "defect_probability", RVal.num (9 / 10))] (9 / 10) rfl rfl rfl
  rw [h]
  norm_num [claimRiskOf]

/-! ## C4: the classification collector never raises and records errors -/

lemma addToHistory_getLast (m : Nat) (r : RVal) (h : List RVal) (hm : 1 ≤ m) :
    (addToHistory m r h).getLast? = some r := by
  unfold addToHistory
  by_cases hc : m < (h ++ [r]).length
  · have hle : (h ++ [r]).length - m ≤ h.length := by
      simp only [List.length_append, List.length_singleton]
      omega
    rw [if_pos hc, List.drop_append_of_le_length hle]
    exact List.getLast?_concat _
  · rw [if_neg hc]
    exact List.getLast?_concat _

/-- C4: for every pair of upstream outcomes, collect_data returns the
record built from both sub-collections, each failed endpoint call yields a
prediction entry with api_status "error" and an error string, and the
record (error entries included) is appended as the last element of the
history. Totality of the embedded function is the never-raises contract. -/
theorem c4_collector_error_record (apiBase now : Str) (dOut qOut : HttpOutcome)
    (hist : List RVal) :
    (isFailureOutcome dOut = true →
      ∃ d, collectDefectData apiBase dOut = .dict d ∧
        rlookup d (S "api_status") = some (.str (S "error")) ∧
        ∃ msg, rlookup d (S "error") = some (.str msg)) ∧
    (isFailureOutcome qOut = true →
      ∃ q, collectQualityData apiBase qOut = .dict q ∧
        rlookup q (S "api_status") = some (.str (S "error")) ∧
        ∃ msg, rlookup q (S "error") = some (.str msg)) ∧
    (collectClassificationData apiBase now dOut qOut hist).1 =
      .dict [ (S "timestamp", .str now),
              (S "defect_prediction", collectDefectData apiBase dOut),
              (S "quality_prediction", collectQualityData apiBase qOut) ] ∧
    ((collectClassificationData apiBase now dOut qOut hist).2).getLast? =
      some ((collectClassificationData apiBase now dOut qOut hist).1) := by
  refine ⟨?_, ?_, rfl, addToHistory_getLast _ _ _ (by norm_num)⟩
  · intro hfail
    rcases dOut with ⟨status, body⟩ | e
    · by_cases hs : status = 200
      · subst hs
        rcases body with err | data
        · exact ⟨_, rfl, rfl, err, rfl⟩
        · simp [isFailureOutcome] at hfail
      · have hd : collectDefectData apiBase (.resp status body) = .dict
            [ (S "api_status", .str (S "error")),
              (S "error", .str (S "HTTP " ++ natStr status)),
              (S "endpoint", .str (apiBase ++ S "/api/defect")) ] := by
          simp [collectDefectData, hs]
        exact ⟨_, hd, rfl, S "HTTP " ++ natStr status, rfl⟩
    · exact ⟨_, rfl, rfl, e, rfl⟩
  · intro hfail
    rcases qOut with ⟨status, body⟩ | e
    · by_cases hs : status = 200
      · subst hs
        rcases body with err | data
        · exact ⟨_, rfl, rfl, err, rfl⟩
        · simp [isFailureOutcome] at hfail
      · have hq : collectQualityData apiBase (.resp status body) = .dict
            [ (S "api_status", .str (S "error")),
              (S "error", .str (S "HTTP " ++ natStr status)),
              (S "endpoint", .str (apiBase ++ S "/api/quality")) ] := by
          simp [collectQualityData, hs]
        exact ⟨_, hq, rfl, S "HTTP " ++ natStr status, rfl⟩
    · exact ⟨_, rfl, rfl, e, rfl⟩

/-! ## C2: generate_report always returns a well-formed report -/

lemma rlookup_cleanEntries (entries : List (Str × RVal)) (key : Str) :
    rlookup (cleanEntries entries) key = (rlookup entries key).map cleanReportContent := by
  induction entries with
  | nil => simp [cleanEntries, rlookup]
  | cons p rest ih =>
    obtain ⟨k, v⟩ := p
    by_cases hk : k = key
    · simp [cleanEntries, rlookup, hk]
    · simp [cleanEntries, rlookup, hk, ih]

lemma hasKey_cleanEntries (entries : List (Str × RVal)) (key : Str) :
    hasKey (cleanEntries entries) key = hasKey entries key := by
  simp [hasKey, rlookup_cleanEntries]

/-- C2: the generate_report boundary is total (the embedded function always
yields a value): a completed pipeline yields the emoji-cleaned assembled
report and a raised pipeline step yields the emergency report, and both
shapes carry every core report key; the emergency report is exactly
`_generate_emergency_report` with status "error", the captured error
message and the fixed emergency narrative strings. -/
theorem c2_generate_report_emergency (now reportId errorMessage : Str) (pd : PipelineData) :
    wellFormedReport (generateQualityControlReport now reportId (.ok pd)) = true ∧
    generateQualityControlReport now reportId (.error errorMessage) =
      generateEmergencyReport errorMessage now reportId ∧
    wellFormedReport (generateEmergencyReport errorMessage now reportId) = true ∧
    (∃ entries, generateEmergencyReport errorMessage now reportId = .dict entries ∧
      rlookup entries (S "status") = some (.str (S "error")) ∧
      rlookup entries (S "error_message") = some (.str errorMessage) ∧
      rlookup entries (S "executive_summary") = some (.str
        (S "Report generation failed due to system error: " ++ errorMessage ++
         S ". Emergency procedures should be initiated to restore monitoring capabilities.")) ∧
      rlookup entries (S "detailed_analysis") = some (.str
        (S "Unable to complete analysis due to system failure. Manual quality checks recommended.")) ∧
      rlookup entries (S "risk_assessment") = some (.str
        (S "HIGH RISK - Quality monitoring system failure requires immediate attention")) ∧
      rlookup entries (S "compliance_status") = some (.str
        (S "UNABLE TO ASSESS - System failure prevents compliance monitoring")) ∧
      rlookup entries (S "recommendations") = some (.list [
        .str (S "Investigate system error immediately"),
        .str (S "Implement manual quality monitoring procedures"),
        .str (S "Contact technical support for system restoration"),
        .str (S "Document all manual quality checks until system recovery") ])) := by
  refine ⟨?_, rfl, rfl, _, rfl, rfl, rfl, rfl, rfl, rfl, rfl, rfl⟩
  show wellFormedReport (cleanReportContent (buildQualityControlReport now reportId pd)) = true
  have hclean : cleanReportContent (buildQualityControlReport now reportId pd) =
      .dict (cleanEntries (match buildQualityControlReport now reportId pd with
        | .dict es => es
        | _ => [])) := by
    simp [buildQualityControlReport, cleanReportContent]
  rw [hclean]
  simp only [wellFormedReport, reportCoreKeys, List.all_cons, List.all_nil,
    hasKey_cleanEntries, Bool.and_eq_true]
  refine ⟨rfl, rfl, rfl, rfl, rfl, rfl, rfl, rfl, rfl, rfl, rfl, trivial⟩

/-! ## C6: search results carry relevance 1 - distance, sorted by distance -/

/-- C6: every item search_relevant_context returns has
relevance_score = 1 - distance, and the returned list is sorted in
non-decreasing distance order. -/
theorem c6_search_sorted_relevance (st : KBState) (collection : String)
    (documents metadatas : List RVal) (distances : List Rat) :
    (∀ item ∈ searchRelevantContext st collection documents metadatas distances,
      item.relevanceScore = 1 - item.distance) ∧
    List.Pairwise (fun a b => a.distance ≤ b.distance)
      (searchRelevantContext st collection documents metadatas distances) := by
  unfold searchRelevantContext
  by_cases h1 : st.embeddingModel.isNone || st.client.isNone ||
      (findCollection st.collections collection).isNone
  · simp [h1]
  · rw [if_neg (by simpa using h1)]
    by_cases h2 : documents.isEmpty
    · simp [h2]
    · rw [if_neg h2]
      constructor
      · intro item hitem
        have hperm := List.mergeSort_perm
          ((documents.zip (metadatas.zip distances)).map
            (fun t => ({ content := t.1, metadata := t.2.1, distance := t.2.2,
                         relevanceScore := 1 - t.2.2 } : SearchItem)))
          (fun a b => decide (a.distance ≤ b.distance))
        have hmem := hperm.mem_iff.mp hitem
        obtain ⟨t, _, ht⟩ := List.mem_map.mp hmem
        rw [← ht]
      · have hs := @List.sorted_mergeSort SearchItem
          (fun a b : SearchItem => decide (a.distance ≤ b.distance))
          (fun a b c hab hbc => by
            simp only [decide_eq_true_eq] at hab hbc ⊢
            exact le_trans hab hbc)
          (fun a b => by
            simp only [Bool.or_eq_true, decide_eq_true_eq]
            exact le_total a.distance b.distance)
          ((documents.zip (metadatas.zip distances)).map
            (fun t => ({ content := t.1, metadata := t.2.1, distance := t.2.2,
                         relevanceScore := 1 - t.2.2 } : SearchItem)))
        exact hs.imp (fun h => by simpa using h)

/-! ## C5 (corrected): degraded knowledge-store operations -/

/-- C5 counterexample: with the embedding model unavailable but the client
available, cleanup_old_embeddings still deletes an old document, so the
claim that cleanup is a no-op whenever the embedding model or the client
is unavailable is false. -/
theorem c5_counterexample :
    (cleanupOldEmbeddings
      { embeddingModel := none, client := some (),
        collections := [("documentation",
          [{ docId := S "doc_1", content := S "c", tsMeta := some (S "2020-01-01T00:00:00") }])] }
      (S "2025-01-01T00:00:00")).collections = [("documentation", [])] ∧
    (none : Option (Str → List Rat)).isNone = true := by
  refine ⟨?_, rfl⟩
  rfl

/-- C5 (amended): add_documentation and add_historical_data return False
and change nothing, and search_relevant_context returns the empty list,
whenever the embedding model or the client is unavailable; the cleanup
routine is a no-op when the client is unavailable (its guard does not
consult the embedding model). -/
theorem c5_safe_noop_amended (st : KBState)
    (docType content dataType textContent : Str) (mts cts : Option Str)
    (now : Str) (collection : String) (documents metadatas : List RVal) (distances : List Rat)
    (cutoff : Str)
    (hun : st.embeddingModel.isNone = true ∨ st.client.isNone = true) :
    addDocumentation st docType content mts now = (false, st) ∧
    addHistoricalData st dataType textContent cts now = (false, st) ∧
    searchRelevantContext st collection documents metadatas distances = [] ∧
    (st.client.isNone = true → cleanupOldEmbeddings st cutoff = st) := by
  have hb : (st.embeddingModel.isNone || st.client.isNone) = true := by
    rcases hun with h | h <;> simp [h]
  refine ⟨?_, ?_, ?_, ?_⟩
  · simp [addDocumentation, hb]
  · simp [addHistoricalData, hb]
  · simp [searchRelevantContext, hb]
  · intro hcl
    simp [cleanupOldEmbeddings, hcl]

/-- C5 witness: the amended theorem applied at a concrete state with both
the embedding model and the client unavailable. -/
theorem c5_safe_noop_amended_witness :
    addDocumentation { embeddingModel := none, client := none, collections := [] }
      (S "guide") (S "text") none (S "t0") =
      (false, { embeddingModel := none, client := none, collections := [] }) ∧
    searchRelevantContext { embeddingModel := none, client := none, collections := [] }
      "historical_data" [.str (S "d")] [.dict []] [1 / 2] = [] ∧
    cleanupOldEmbeddings { embeddingModel := none, client := none, collections := [] }
      (S "2025-01-01T00:00:00") =
      { embeddingModel := none, client := none, collections := [] } := by
  have h := c5_safe_noop_amended
    { embeddingModel := none, client := none, collections := [] }
    (S "guide") (S "text") (S "classification") (S "txt") none none (S "t0") "historical_data"
    [.str (S "d")] [.dict []] [1 / 2] (S "2025-01-01T00:00:00") (Or.inl rfl)
  exact ⟨h.1, h.2.2.1, h.2.2.2 rfl⟩

/-! ## C8: cleanup deletes by lexical timestamp-string comparison -/

/-- C8: with the client available, cleanup maps every collection through
the per-collection cleanup, and within a collection whose document ids are
unique a document survives if and only if its stored timestamp string is
not lexically smaller (code-point comparison, not parsed dates) than the
cutoff string — so a document is deleted exactly when
timestamp < cutoff holds as a plain string comparison. -/
theorem c8_cleanup_lexical (st : KBState) (cutoff : Str) (name : String) (docs : List KBDoc)
    (hclient : st.client.isSome = true)
    (hmem : (name, docs) ∈ st.collections)
    (hnd : (docs.map (fun d => d.docId)).Nodup) :
    (name, cleanupCollection cutoff docs) ∈ (cleanupOldEmbeddings st cutoff).collections ∧
    (∀ d ∈ docs, (d ∈ cleanupCollection cutoff docs ↔
      ¬ strLtCp (d.tsMeta.getD []) cutoff = true)) := by
  constructor
  · have hnone : st.client.isNone = false := by
      cases hcl : st.client
      · rw [hcl] at hclient
        simp at hclient
      · simp [hcl]
    unfold cleanupOldEmbeddings
    rw [if_neg (by simp [hnone])]
    exact List.mem_map_of_mem (fun p => (p.1, cleanupCollection cutoff p.2)) hmem
  · intro d hd
    unfold cleanupCollection
    by_cases hempty :
        ((docs.filter (fun d => strLtCp (d.tsMeta.getD []) cutoff)).map
          (fun d => d.docId)).isEmpty
    · rw [if_pos hempty]
      have hfilter : docs.filter (fun d => strLtCp (d.tsMeta.getD []) cutoff) = [] :=
        List.map_eq_nil_iff.mp (List.isEmpty_iff.mp hempty)
      have hnot : ¬ strLtCp (d.tsMeta.getD []) cutoff = true := by
        intro hlt
        have hdin : d ∈ docs.filter (fun d => strLtCp (d.tsMeta.getD []) cutoff) :=
          List.mem_filter.mpr ⟨hd, hlt⟩
        rw [hfilter] at hdin
        simp at hdin
      simp [hd, hnot]
    · rw [if_neg hempty]
      have hinj := List.inj_on_of_nodup_map hnd
      constructor
      · intro hin hlt
        have hin2 := List.mem_filter.mp hin
        have hmap : d.docId ∈ (docs.filter (fun d => strLtCp (d.tsMeta.getD []) cutoff)).map
            (fun d => d.docId) :=
          List.mem_map_of_mem _ (List.mem_filter.mpr ⟨hd, hlt⟩)
        have hcontains := hin2.2
        simp only [Bool.not_eq_true', List.contains, List.elem_eq_mem,
          decide_eq_false_iff_not] at hcontains
        exact hcontains hmap
      · intro hnot
        refine List.mem_filter.mpr ⟨hd, ?_⟩
        simp only [Bool.not_eq_true', List.contains, List.elem_eq_mem,
          decide_eq_false_iff_not]
        intro hmem2
        obtain ⟨e, he, heq⟩ := List.mem_map.mp hmem2
        have he2 := List.mem_filter.mp he
        have hede : e = d := hinj he2.1 hd heq
        rw [hede] at he2
        exact hnot he2.2

/-- C8 witness: the theorem applied at a concrete two-document store; the
old document is deleted, the new one survives. -/
theorem c8_cleanup_lexical_witness :
    ({ docId := S "old", content := S "a", tsMeta := some (S "2020-01-01T00:00:00") } : KBDoc) ∉
      cleanupCollection (S "2025-06-01T00:00:00")
        [ { docId := S "old", content := S "a", tsMeta := some (S "2020-01-01T00:00:00") },
          { docId := S "new", content := S "b", tsMeta := some (S "2026-01-01T00:00:00") } ] ∧
    ({ docId := S "new", content := S "b", tsMeta := some (S "2026-01-01T00:00:00") } : KBDoc) ∈
      cleanupCollection (S "2025-06-01T00:00:00")
        [ { docId := S "old", content := S "a", tsMeta := some (S "2020-01-01T00:00:00") },
          { docId := S "new", content := S "b", tsMeta := some (S "2026-01-01T00:00:00") } ] := by
  have h := c8_cleanup_lexical
    { embeddingModel := none, client := some (),
      collections := [("documentation",
        [ { docId := S "old", content := S "a", tsMeta := some (S "2020-01-01T00:00:00") },
          { docId := S "new", content := S "b", tsMeta := some (S "2026-01-01T00:00:00") } ])] }
    (S "2025-06-01T00:00:00") "documentation"
    [ { docId := S "old", content := S "a", tsMeta := some (S "2020-01-01T00:00:00") },
      { docId := S "new", content := S "b", tsMeta := some (S "2026-01-01T00:00:00") } ]
    rfl (by simp) (by decide)
  constructor
  · intro hin
    have := (h.2 _ (by simp)).mp hin
    exact this (by decide)
  · exact (h.2 _ (by simp)).mpr (by decide)

/-! ## C1 (corrected): collection success rate and system health -/

lemma systemHealthStatus_eq_claim (k e : Nat) :
    systemHealthStatus k e = claimHealthStatus k e := by
  unfold systemHealthStatus claimHealthStatus
  by_cases h1 : k = 4 <;> by_cases h2 : e = 0 <;> by_cases h3 : 3 ≤ k <;>
    by_cases h4 : e ≤ 1 <;> by_cases h5 : k = 2 <;> simp [h1, h2, h3, h4, h5] <;> omega

/-- C1 counterexample: a collected-data input whose classification source
is an empty dict. It is present and carries no error key, so the claim as
stated counts K = 1 and predicts a 25 percent success rate, but the code
treats the falsy empty dict as unsuccessful and computes 0 percent. -/
theorem c1_counterexample :
    claimSuccessCount ⟨none, some [], none, none, none, []⟩ = 1 ∧
    (extractRealMetrics ⟨none, some [], none, none, none, []⟩).collectionSuccessRate = 0 ∧
    ((1 : Rat) / 4 * 100 ≠ 0) := by
  refine ⟨rfl, ?_, by norm_num⟩
  show ((0 : Nat) : Rat) / 4 * 100 = 0
  norm_num

/-- C1 (amended): with a source counted successful when it is a non-empty
mapping carrying no error key (the truthiness test of the code; the claim
as stated omits non-emptiness), the computed collection_success_rate is
exactly K/4*100 and the overall status follows the claimed threshold table
for every input. -/
theorem c1_success_rate_and_health_amended (cd : CollectedData) :
    (extractRealMetrics cd).collectionSuccessRate = (codeSuccessCount cd : Rat) / 4 * 100 ∧
    (extractRealMetrics cd).healthStatus =
      claimHealthStatus (codeSuccessCount cd) cd.collectionErrors.length ∧
    (extractRealMetrics cd).healthSuccessful = codeSuccessCount cd ∧
    (extractRealMetrics cd).healthErrors = cd.collectionErrors.length := by
  refine ⟨rfl, ?_, rfl, rfl⟩
  show systemHealthStatus (codeSuccessCount cd) cd.collectionErrors.length = _
  exact systemHealthStatus_eq_claim _ _

/-! ## C3 (code bug): the Gemini client returns None on total failure -/

/-- C3: evaluating the embedded `generate_comprehensive_report` at the
failing inputs. When every `generate_content` call raises a rate-limit
error (429), the full-mode loop retries twice, recurses once into compact
mode, exhausts its three attempts there and breaks; when the first call
raises a non-rate-limit error the loop breaks at once. In both cases the
function body ends with no return statement, so the caller receives None —
not the deterministic fallback dict the specification promises (the
fallback content is produced only on the is_available()-false path and in
the outer exception handler). -/
theorem c3_total_failure_returns_none :
    generateComprehensiveReport true
      (fun _ => .fail (S "429 Resource has been exhausted")) (S "quality_control")
      (S "2025-01-01 00:00:00") false = none ∧
    generateComprehensiveReport true
      (fun _ => .fail (S "internal server error")) (S "quality_control")
      (S "2025-01-01 00:00:00") false = none ∧
    generateComprehensiveReport false
      (fun _ => .fail (S "429")) (S "quality_control") (S "2025-01-01 00:00:00") false =
      some (.errorResult (S "Gemini client not available")
        (generateFallbackContent (S "quality_control") (S "2025-01-01 00:00:00"))) := by
  refine ⟨?_, ?_, rfl⟩
  · rfl
  · rfl

/-! ## C9 (corrected): idempotence of the emoji-sanitization pass

The replacement keys of the stored file are sequences of BMP characters
none of which the removal regex matches, while the regex deletes
characters that may sit between two fragments of a key: deleting such a
character can splice a key occurrence together, which only the next
application rewrites. Hence one application is not idempotent, but the
output of the second application is a fixed point. -/

lemma stripPfx_eq_some {k s r : Str} (h : stripPfx k s = some r) : s = k ++ r := by
  induction k generalizing s with
  | nil =>
    simp only [stripPfx, Option.some.injEq] at h
    simp [h]
  | cons a ks ih =>
    cases s with
    | nil => simp [stripPfx] at h
    | cons c t =>
      simp only [stripPfx] at h
      by_cases hac : a = c
      · rw [if_pos hac] at h
        rw [← hac, List.cons_append, ih h]
      · rw [if_neg hac] at h
        simp at h

lemma stripPfx_of_prefix {k s : Str} (h : k <+: s) : ∃ r, stripPfx k s = some r := by
  induction k generalizing s with
  | nil => exact ⟨s, rfl⟩
  | cons a ks ih =>
    cases s with
    | nil => simp at h
    | cons c t =>
      rw [List.cons_prefix_cons] at h
      obtain ⟨r, hr⟩ := ih h.2
      exact ⟨r, by simp [stripPfx, h.1, hr]⟩

lemma stripPfx_none_not_prefix {k s : Str} (h : stripPfx k s = none) : ¬ k <+: s := by
  intro hp
  obtain ⟨r, hr⟩ := stripPfx_of_prefix hp
  rw [hr] at h
  exact Option.noConfusion h

lemma replaceFuel_of_no_occur (k v : Str) : ∀ (fuel : Nat) (s : Str),
    ¬ (k <:+: s) → replaceFuel k v fuel s = s := by
  intro fuel
  induction fuel with
  | zero => intro s _; rfl
  | succ n ih =>
    intro s h
    cases s with
    | nil => rfl
    | cons c0 rest =>
      rcases hsp : stripPfx k (c0 :: rest) with _ | remaining
      · have hnr : ¬ (k <:+: rest) := fun hr => h (List.infix_cons_iff.mpr (Or.inr hr))
        simp only [replaceFuel, hsp]
        rw [ih rest hnr]
      · exfalso
        apply h
        have hpre : k <+: c0 :: rest := by
          rw [stripPfx_eq_some hsp]
          exact List.prefix_append k remaining
        exact hpre.isInfix

lemma mem_replaceFuel {k v : Str} : ∀ (fuel : Nat) (s : Str) (c : Nat),
    c ∈ replaceFuel k v fuel s → c ∈ s ∨ c ∈ v := by
  intro fuel
  induction fuel with
  | zero => intro s c h; exact Or.inl h
  | succ n ih =>
    intro s c h
    cases s with
    | nil => simp [replaceFuel] at h
    | cons c0 rest =>
      rcases hsp : stripPfx k (c0 :: rest) with _ | remaining
      · simp only [replaceFuel, hsp] at h
        rcases List.mem_cons.mp h with h1 | h2
        · exact Or.inl (by simp [h1])
        · rcases ih rest c h2 with h3 | h4
          · exact Or.inl (List.mem_cons_of_mem _ h3)
          · exact Or.inr h4
      · simp only [replaceFuel, hsp] at h
        rcases List.mem_append.mp h with h1 | h2
        · exact Or.inr h1
        · rcases ih remaining c h2 with h3 | h4
          · refine Or.inl ?_
            rw [stripPfx_eq_some hsp]
            exact List.mem_append_right _ h3
          · exact Or.inr h4

lemma infix_append_left_of_disjoint {p : Str} : ∀ (v w : Str),
    (∀ c ∈ v, c ∉ p) → p ≠ [] → p <:+: v ++ w → p <:+: w := by
  intro v
  induction v with
  | nil => intro w _ _ h; simpa using h
  | cons a v2 ih =>
    intro w hdisj hne h
    rw [List.cons_append, List.infix_cons_iff] at h
    rcases h with hpre | hinf
    · exfalso
      cases p with
      | nil => exact hne rfl
      | cons b p2 =>
        rw [List.cons_prefix_cons] at hpre
        refine hdisj a (by simp) ?_
        rw [← hpre.1]
        exact List.mem_cons_self b p2
    · exact ih w (fun c hc => hdisj c (by simp [hc])) hne hinf

lemma prefix_replaceFuel {k v : Str} (hv : v ≠ []) :
    ∀ (fuel : Nat) (p s : Str), (∀ c ∈ v, c ∉ p) →
      p <+: replaceFuel k v fuel s → p <+: s := by
  intro fuel
  induction fuel with
  | zero => intro p s _ h; exact h
  | succ n ih =>
    intro p s hdisj h
    cases s with
    | nil => simpa [replaceFuel] using h
    | cons c0 rest =>
      rcases hsp : stripPfx k (c0 :: rest) with _ | remaining
      · simp only [replaceFuel, hsp] at h
        cases p with
        | nil => exact List.nil_prefix
        | cons a p2 =>
          rw [List.cons_prefix_cons] at h ⊢
          exact ⟨h.1, ih p2 rest
            (fun c hc hcp => hdisj c hc (List.mem_cons_of_mem _ hcp)) h.2⟩
      · simp only [replaceFuel, hsp] at h
        cases p with
        | nil => exact List.nil_prefix
        | cons a p2 =>
          exfalso
          cases v with
          | nil => exact hv rfl
          | cons b v2 =>
            rw [List.cons_append, List.cons_prefix_cons] at h
            refine hdisj b (by simp) ?_
            rw [← h.1]
            exact List.mem_cons_self a p2

lemma infix_replaceFuel {k v : Str} (hk : k ≠ []) (hv : v ≠ []) :
    ∀ (fuel : Nat) (p s : Str), s.length ≤ fuel → (∀ c ∈ v, c ∉ p) → p ≠ [] →
      p <:+: replaceFuel k v fuel s → p <:+: s := by
  intro fuel
  induction fuel with
  | zero => intro p s _ _ _ h; exact h
  | succ n ih =>
    intro p s hlen hdisj hp h
    cases s with
    | nil =>
      simp only [replaceFuel] at h
      exact h
    | cons c0 rest =>
      have hrest : rest.length ≤ n := by
        simp only [List.length_cons] at hlen
        omega
      rcases hsp : stripPfx k (c0 :: rest) with _ | remaining
      · simp only [replaceFuel, hsp] at h
        rcases List.infix_cons_iff.mp h with hpre | hinf
        · cases p with
          | nil => exact absurd rfl hp
          | cons a p2 =>
            rw [List.cons_prefix_cons] at hpre
            refine List.infix_cons_iff.mpr (Or.inl ?_)
            rw [List.cons_prefix_cons]
            exact ⟨hpre.1, prefix_replaceFuel hv n p2 rest
              (fun c hc hcp => hdisj c hc (List.mem_cons_of_mem _ hcp)) hpre.2⟩
        · exact List.infix_cons_iff.mpr (Or.inr (ih p rest hrest hdisj hp hinf))
      · simp only [replaceFuel, hsp] at h
        have hsplit := stripPfx_eq_some hsp
        have hrem : remaining.length ≤ n := by
          have hlength : (c0 :: rest).length = k.length + remaining.length := by
            rw [hsplit, List.length_append]
          have hk1 : 1 ≤ k.length := by
            cases k with
            | nil => exact absurd rfl hk
            | cons _ _ => simp
          simp only [List.length_cons] at hlength hlen
          omega
        have h2 : p <:+: replaceFuel k v n remaining :=
          infix_append_left_of_disjoint v _ hdisj hp h
        have h3 : p <:+: remaining := ih p remaining hrem hdisj hp h2
        have hsuf : remaining <:+ c0 :: rest := ⟨k, hsplit.symm⟩
        exact h3.trans hsuf.isInfix

lemma key_not_infix_replaceFuel {k v : Str} (hk : k ≠ []) (hv : v ≠ [])
    (hdisj : ∀ c ∈ v, c ∉ k) :
    ∀ (fuel : Nat) (s : Str), s.length ≤ fuel → ¬ k <:+: replaceFuel k v fuel s := by
  intro fuel
  induction fuel with
  | zero =>
    intro s hlen h
    have hs : s = [] := List.length_eq_zero.mp (Nat.le_zero.mp hlen)
    rw [hs] at h
    simp only [replaceFuel] at h
    exact hk (List.eq_nil_of_infix_nil h)
  | succ n ih =>
    intro s hlen h
    cases s with
    | nil =>
      simp only [replaceFuel] at h
      exact hk (List.eq_nil_of_infix_nil h)
    | cons c0 rest =>
      have hrest : rest.length ≤ n := by
        simp only [List.length_cons] at hlen
        omega
      rcases hsp : stripPfx k (c0 :: rest) with _ | remaining
      · simp only [replaceFuel, hsp] at h
        rcases List.infix_cons_iff.mp h with hpre | hinf
        · cases k with
          | nil => exact hk rfl
          | cons a k2 =>
            rw [List.cons_prefix_cons] at hpre
            have h2 : k2 <+: rest := prefix_replaceFuel hv n k2 rest
              (fun c hc hck => hdisj c hc (List.mem_cons_of_mem _ hck)) hpre.2
            refine stripPfx_none_not_prefix hsp ?_
            rw [List.cons_prefix_cons]
            exact ⟨hpre.1, h2⟩
        · exact ih rest hrest hinf
      · simp only [replaceFuel, hsp] at h
        have hsplit := stripPfx_eq_some hsp
        have hrem : remaining.length ≤ n := by
          have hlength : (c0 :: rest).length = k.length + remaining.length := by
            rw [hsplit, List.length_append]
          have hk1 : 1 ≤ k.length := by
            cases k with
            | nil => exact absurd rfl hk
            | cons _ _ => simp
          simp only [List.length_cons] at hlength hlen
          omega
        have h2 : k <:+: replaceFuel k v n remaining :=
          infix_append_left_of_disjoint v _ hdisj hk h
        exact ih remaining hrem h2

lemma pyReplace_of_no_occur {k v s : Str} (h : ¬ k <:+: s) : pyReplace k v s = s := by
  unfold pyReplace
  by_cases hk : k = []
  · rw [if_pos hk]
  · rw [if_neg hk]
    exact replaceFuel_of_no_occur k v s.length s h

lemma mem_pyReplace {k v s : Str} {c : Nat} (h : c ∈ pyReplace k v s) : c ∈ s ∨ c ∈ v := by
  unfold pyReplace at h
  by_cases hk : k = []
  · rw [if_pos hk] at h
    exact Or.inl h
  · rw [if_neg hk] at h
    exact mem_replaceFuel s.length s c h

lemma infix_pyReplace {k v p s : Str} (hk : k ≠ []) (hv : v ≠ [])
    (hdisj : ∀ c ∈ v, c ∉ p) (hp : p ≠ []) (h : p <:+: pyReplace k v s) : p <:+: s := by
  unfold pyReplace at h
  rw [if_neg hk] at h
  exact infix_replaceFuel hk hv s.length p s (le_refl _) hdisj hp h

lemma key_not_infix_pyReplace {k v s : Str} (hk : k ≠ []) (hv : v ≠ [])
    (hdisj : ∀ c ∈ v, c ∉ k) : ¬ k <:+: pyReplace k v s := by
  unfold pyReplace
  rw [if_neg hk]
  exact key_not_infix_replaceFuel hk hv hdisj s.length s (le_refl _)

lemma foldl_pyReplace_mem : ∀ (ps : List (Str × Str)) (s : Str) (c : Nat),
    c ∈ ps.foldl (fun acc q => pyReplace q.1 q.2 acc) s →
    c ∈ s ∨ ∃ q ∈ ps, c ∈ q.2 := by
  intro ps
  induction ps with
  | nil => intro s c h; exact Or.inl h
  | cons q rest ih =>
    intro s c h
    rw [List.foldl_cons] at h
    rcases ih _ c h with h1 | ⟨q2, hq2, hc⟩
    · rcases mem_pyReplace h1 with h2 | h3
      · exact Or.inl h2
      · exact Or.inr ⟨q, by simp, h3⟩
    · exact Or.inr ⟨q2, by simp [hq2], hc⟩

lemma foldl_pyReplace_id : ∀ (ps : List (Str × Str)) (s : Str),
    (∀ q ∈ ps, ¬ q.1 <:+: s) → ps.foldl (fun acc q => pyReplace q.1 q.2 acc) s = s := by
  intro ps
  induction ps with
  | nil => intro s _; rfl
  | cons q rest ih =>
    intro s h
    rw [List.foldl_cons, pyReplace_of_no_occur (h q (by simp))]
    exact ih s (fun r hr => h r (by simp [hr]))

lemma foldl_pyReplace_preserves_not_infix :
    ∀ (ps : List (Str × Str)) (s p : Str),
    (∀ q ∈ ps, q.1 ≠ [] ∧ q.2 ≠ [] ∧ (∀ c ∈ q.2, c < 128)) →
    (∀ c ∈ p, 128 ≤ c) → p ≠ [] → ¬ p <:+: s →
    ¬ p <:+: ps.foldl (fun acc q => pyReplace q.1 q.2 acc) s := by
  intro ps
  induction ps with
  | nil => intro s p _ _ _ h; exact h
  | cons q rest ih =>
    intro s p hgood hhigh hp h
    rw [List.foldl_cons]
    refine ih _ p (fun r hr => hgood r (by simp [hr])) hhigh hp ?_
    intro hinf
    refine h (infix_pyReplace (hgood q (by simp)).1 (hgood q (by simp)).2.1 ?_ hp hinf)
    intro c hc hcp
    have h1 := (hgood q (by simp)).2.2 c hc
    have h2 := hhigh c hcp
    omega

lemma foldl_pyReplace_no_keys :
    ∀ (ps : List (Str × Str)) (s : Str),
    (∀ q ∈ ps, q.1 ≠ [] ∧ q.2 ≠ [] ∧ (∀ c ∈ q.1, 128 ≤ c) ∧ (∀ c ∈ q.2, c < 128)) →
    ∀ q ∈ ps, ¬ q.1 <:+: ps.foldl (fun acc r => pyReplace r.1 r.2 acc) s := by
  intro ps
  induction ps with
  | nil => intro s _ q hq; simp at hq
  | cons q0 rest ih =>
    intro s hgood q hq
    rw [List.foldl_cons]
    rcases List.mem_cons.mp hq with rfl | hmem
    · refine foldl_pyReplace_preserves_not_infix rest _ q.1
        (fun r hr => ⟨(hgood r (by simp [hr])).1, (hgood r (by simp [hr])).2.1,
          (hgood r (by simp [hr])).2.2.2⟩)
        ((hgood q (by simp)).2.2.1) ((hgood q (by simp)).1) ?_
      refine key_not_infix_pyReplace ((hgood q (by simp)).1) ((hgood q (by simp)).2.1) ?_
      intro c hc hck
      have h1 := (hgood q (by simp)).2.2.2 c hc
      have h2 := (hgood q (by simp)).2.2.1 c hck
      omega
    · exact ih _ (fun r hr => hgood r (by simp [hr])) q hmem

lemma emojiReplacements_good :
    ∀ q ∈ emojiReplacements,
      q.1 ≠ [] ∧ q.2 ≠ [] ∧ (∀ c ∈ q.1, 128 ≤ c) ∧ (∀ c ∈ q.2, c < 128) := by
  decide

lemma ascii_not_inEmojiClass {c : Nat} (h : c < 128) : inEmojiClass c = false := by
  simp [inEmojiClass, emojiRanges]
  omega

lemma mem_applyReplacements {s : Str} {c : Nat} (h : c ∈ applyReplacements s) :
    c ∈ s ∨ c < 128 := by
  rcases foldl_pyReplace_mem emojiReplacements s c h with h1 | ⟨q, hq, hc⟩
  · exact Or.inl h1
  · exact Or.inr ((emojiReplacements_good q hq).2.2.2 c hc)

lemma cleanText_classFree {s : Str} : ∀ c ∈ cleanEmojisFromText s, inEmojiClass c = false := by
  intro c hc
  unfold cleanEmojisFromText at hc
  by_cases hs : s = []
  · rw [if_pos hs, hs] at hc
    simp at hc
  · rw [if_neg hs] at hc
    simpa using (List.mem_filter.mp hc).2

lemma applyReplacements_no_keys (s : Str) :
    ∀ q ∈ emojiReplacements, ¬ q.1 <:+: applyReplacements s :=
  foldl_pyReplace_no_keys emojiReplacements s emojiReplacements_good

lemma cleanText_idem_of_classFree {s : Str} (hfree : ∀ c ∈ s, inEmojiClass c = false) :
    cleanEmojisFromText (cleanEmojisFromText s) = cleanEmojisFromText s := by
  by_cases hs : s = []
  · rw [hs]
    rfl
  · have happ_free : ∀ c ∈ applyReplacements s, inEmojiClass c = false := by
      intro c hc
      rcases mem_applyReplacements hc with h1 | h2
      · exact hfree c h1
      · exact ascii_not_inEmojiClass h2
    have hy : cleanEmojisFromText s = applyReplacements s := by
      unfold cleanEmojisFromText
      rw [if_neg hs]
      exact List.filter_eq_self.mpr (fun c hc => by simp [happ_free c hc])
    rw [hy]
    by_cases hy0 : applyReplacements s = []
    · rw [hy0]
      rfl
    · unfold cleanEmojisFromText
      rw [if_neg hy0]
      have hid : applyReplacements (applyReplacements s) = applyReplacements s :=
        foldl_pyReplace_id emojiReplacements (applyReplacements s) (applyReplacements_no_keys s)
      rw [show applyReplacements (applyReplacements s) = applyReplacements s from hid]
      exact List.filter_eq_self.mpr (fun c hc => by simp [happ_free c hc])

mutual

theorem cleanStableVal (v : RVal) :
    cleanReportContent (cleanReportContent (cleanReportContent v)) =
      cleanReportContent (cleanReportContent v) := by
  cases v with
  | str s =>
    simp only [cleanReportContent]
    rw [cleanText_idem_of_classFree (@cleanText_classFree s)]
  | num q => simp [cleanReportContent]
  | bool b => simp [cleanReportContent]
  | list items =>
    simp only [cleanReportContent]
    rw [cleanStableItems items]
  | dict entries =>
    simp only [cleanReportContent]
    rw [cleanStableEntries entries]

theorem cleanStableEntries (es : List (Str × RVal)) :
    cleanEntries (cleanEntries (cleanEntries es)) = cleanEntries (cleanEntries es) := by
  match es with
  | [] => simp [cleanEntries]
  | (k, v) :: rest =>
    simp only [cleanEntries]
    rw [cleanStableVal v, cleanStableEntries rest]

theorem cleanStableItems (vs : List RVal) :
    cleanItems (cleanItems (cleanItems vs)) = cleanItems (cleanItems vs) := by
  match vs with
  | [] => simp [cleanItems]
  | v :: rest =>
    simp only [cleanItems]
    rw [cleanStableVal v, cleanStableItems rest]

end

/-- C9 counterexample: the one-string report whose middle character falls
in the removal regex while its neighbours spell a replacement key.
One application deletes the middle character leaving the spliced key;
the second application rewrites that key to "[STAR]", so applying
clean_report_content twice differs from applying it once. -/
theorem c9_counterexample :
    cleanReportContent (cleanReportContent (.str [0xE2, 0x2705, 0xAD])) ≠
      cleanReportContent (.str [0xE2, 0x2705, 0xAD]) := by
  have h1 : cleanEmojisFromText [0xE2, 0x2705, 0xAD] = [0xE2, 0xAD] := by decide
  have h2 : cleanEmojisFromText [0xE2, 0xAD] = S "[STAR]" := by decide
  intro h
  rw [show cleanReportContent (.str [0xE2, 0x2705, 0xAD]) = .str [0xE2, 0xAD] from by
    simp [cleanReportContent, h1]] at h
  rw [show cleanReportContent (.str [0xE2, 0xAD]) = .str (S "[STAR]") from by
    simp [cleanReportContent, h2]] at h
  injection h with h3
  exact absurd h3 (by decide)

/-- C9 (amended): the emoji-sanitization pass is idempotent from the
second application on — for every report data structure, applying
clean_report_content three times yields a result identical to applying it
twice (equivalently, every output of the double application is a fixed
point); applying it twice does not always equal applying it once, because
the regex-removal phase can delete a character standing between two
fragments of a replacement key and splice a new key occurrence together. -/
theorem c9_clean_idempotent_from_second (v : RVal) :
    cleanReportContent (cleanReportContent (cleanReportContent v)) =
      cleanReportContent (cleanReportContent v) :=
  cleanStableVal v
